import Mathlib

/-!
Verification of the content-curation pipeline of the weekly iGaming digest
(src/main.py) against its natural-language specification.

The Python module is shallowly embedded: each Python function of the
curation core is translated to an executable Lean definition with the same
name (modulo Lean lexical rules).  Items are the dicts produced by
`collect_rss_items` (five string fields).  External collaborators (feed
fetching, the completion service, difflib's similarity ratio, rendering)
are modelled as explicit parameters of the definitions that consume them,
so every theorem quantifies over their behaviour.
-/

namespace Digest

/-- An Item as built by `collect_rss_items` (src/main.py:90-96): a dict with
exactly the keys title, link, summary, section, source.  The `section`
key is named `sec` because `section` is a Lean keyword. -/
structure Item where
  title : String
  link : String
  summary : String
  sec : String
  source : String
deriving DecidableEq

/-- Python substring test `pat in hay` on strings: some index of `hay` starts
with `pat` (the empty pattern is contained in everything, as in Python). -/
def contains_sub (hay pat : String) : Bool :=
  (List.range (hay.toList.length + 1)).any (fun i => pat.toList.isPrefixOf (hay.toList.drop i))

/-- Python `s.lower()`, character by character (the source's strings are
ASCII, where `Char.toLower` agrees with Python). -/
def py_lower (s : String) : String :=
  (s.toList.map Char.toLower).asString

/-- Python `s.strip()`: drop leading and trailing whitespace. -/
def py_strip (s : String) : String :=
  ((s.toList.dropWhile Char.isWhitespace).reverse.dropWhile Char.isWhitespace).reverse.asString

/-- Python `s.endswith(suf)`. -/
def ends_with (s suf : String) : Bool :=
  suf.toList.isSuffixOf s.toList

/-- Python `s[:n]` on a string: the first `n` characters. -/
def py_take (s : String) (n : Nat) : String :=
  (s.toList.take n).asString

/-- Accumulator loop behind `py_words`: gather maximal runs of
non-whitespace characters (the accumulator holds the current word
reversed). -/
def words_aux : List Char → List Char → List String
  | [], acc => if acc.isEmpty then [] else [acc.reverse.asString]
  | c :: cs, acc =>
    if Char.isWhitespace c then
      if acc.isEmpty then words_aux cs [] else acc.reverse.asString :: words_aux cs []
    else words_aux cs (c :: acc)

/-- Python `s.split()`: split on whitespace runs, dropping empty pieces. -/
def py_words (s : String) : List String :=
  words_aux s.toList []

/-- Python `" ".join(s.split())`: collapse all whitespace runs to single spaces. -/
def collapse_ws (s : String) : String :=
  String.intercalate " " (py_words s)

/-! ## Deduplicator (src/main.py:99-106) -/

/-- The dedup key of `dedup_items` (src/main.py:102):
`(it.get("title","").lower(), it.get("link",""))`. -/
def item_key (it : Item) : String × String :=
  (py_lower it.title, it.link)

/-- The loop of `dedup_items` (src/main.py:100-105): `seen` is the set of keys
already emitted (a Python `set`; modelled as a list used only through
membership). -/
def dedup_go (seen : List (String × String)) : List Item → List Item
  | [] => []
  | it :: rest =>
    if item_key it ∈ seen then dedup_go seen rest
    else it :: dedup_go (item_key it :: seen) rest

/-- dedup_items (src/main.py:99-106): drop every Item whose
`(lowercased title, link)` key was already seen. -/
def dedup_items (items : List Item) : List Item :=
  dedup_go [] items

theorem dedup_go_sublist (seen : List (String × String)) (l : List Item) :
    List.Sublist (dedup_go seen l) l := by
  induction l generalizing seen with
  | nil => simp [dedup_go]
  | cons x xs ih =>
    simp only [dedup_go]
    split
    · exact (ih seen).trans (List.sublist_cons_self x xs)
    · exact (ih (item_key x :: seen)).cons₂ x

theorem mem_dedup_go {it : Item} {seen : List (String × String)} {l : List Item}
    (h : it ∈ dedup_go seen l) : it ∈ l ∧ item_key it ∉ seen := by
  induction l generalizing seen with
  | nil => simp [dedup_go] at h
  | cons x xs ih =>
    simp only [dedup_go] at h
    split at h
    · obtain ⟨h1, h2⟩ := ih h
      exact ⟨List.mem_cons_of_mem _ h1, h2⟩
    · rcases List.mem_cons.mp h with h' | h'
      · subst h'
        exact ⟨List.mem_cons_self _ _, by assumption⟩
      · obtain ⟨h1, h2⟩ := ih h'
        refine ⟨List.mem_cons_of_mem _ h1, fun hc => h2 ?_⟩
        exact List.mem_cons_of_mem _ hc

theorem dedup_go_pairwise (seen : List (String × String)) (l : List Item) :
    (dedup_go seen l).Pairwise (fun a b => item_key a ≠ item_key b) := by
  induction l generalizing seen with
  | nil => simp [dedup_go]
  | cons x xs ih =>
    simp only [dedup_go]
    split
    · exact ih seen
    · refine List.Pairwise.cons ?_ (ih (item_key x :: seen))
      intro b hb hkey
      have := (mem_dedup_go hb).2
      exact this (hkey ▸ List.mem_cons_self _ _)

theorem dedup_go_eq_self (seen : List (String × String)) (l : List Item)
    (h1 : ∀ it ∈ l, item_key it ∉ seen)
    (h2 : l.Pairwise (fun a b => item_key a ≠ item_key b)) :
    dedup_go seen l = l := by
  induction l generalizing seen with
  | nil => simp [dedup_go]
  | cons x xs ih =>
    simp only [dedup_go]
    rw [if_neg (h1 x (List.mem_cons_self _ _))]
    have hpair := List.pairwise_cons.mp h2
    congr 1
    refine ih (item_key x :: seen) ?_ hpair.2
    intro it hit hc
    rcases List.mem_cons.mp hc with h' | h'
    · exact hpair.1 it hit h'.symm
    · exact h1 it (List.mem_cons_of_mem _ hit) h'

/-- C6: deduplication is idempotent: applying `dedup_items` twice yields the
same result as applying it once, for every sequence of Items. -/
theorem dedup_idempotent (S : List Item) :
    dedup_items (dedup_items S) = dedup_items S :=
  dedup_go_eq_self [] _ (fun _ _ => List.not_mem_nil _) (dedup_go_pairwise [] S)

/-- Modelled from the spec: "return a sequence with exact-key duplicates
removed, preserving the order of first occurrence".  Keep each Item, then
recursively keep the first occurrences among the later Items whose key
differs.  Compared against `dedup_items` in `dedup_exact_key_first_occurrence`. -/
def keep_first : List Item → List Item
  | [] => []
  | x :: xs => x :: keep_first (xs.filter (fun y => decide (item_key y ≠ item_key x)))
  termination_by l => l.length
  decreasing_by
    simp only [List.length_cons]
    exact Nat.lt_succ_of_le (List.length_filter_le _ _)

theorem key_decide_notmem_cons (y : Item) (k : String × String)
    (seen : List (String × String)) :
    (decide (item_key y ∉ k :: seen)) =
      ((decide (item_key y ≠ k)) && decide (item_key y ∉ seen)) := by
  by_cases h1 : item_key y = k <;> by_cases h2 : item_key y ∈ seen <;>
    simp [h1, h2]

theorem dedup_go_eq_keep_first (seen : List (String × String)) (l : List Item) :
    dedup_go seen l = keep_first (l.filter (fun it => decide (item_key it ∉ seen))) := by
  induction l generalizing seen with
  | nil => simp [dedup_go, keep_first]
  | cons x xs ih =>
    simp only [dedup_go]
    split
    · rw [List.filter_cons_of_neg (by simpa), ih seen]
    · rw [List.filter_cons_of_pos (by simpa), keep_first, List.filter_filter]
      have hcongr : xs.filter (fun it => decide (item_key it ∉ item_key x :: seen)) =
          xs.filter (fun it => (decide (item_key it ≠ item_key x)) && decide (item_key it ∉ seen)) :=
        List.filter_congr (fun y _ => key_decide_notmem_cons y (item_key x) seen)
      rw [ih (item_key x :: seen), hcongr]

/-- C7: for every sequence of Items, the dedup output contains no two Items
with the same `(lowercased title, link)` key, and it equals the
first-occurrence subsequence `keep_first` of the input (hence preserves the
order of first occurrence of each key). -/
theorem dedup_exact_key_first_occurrence (S : List Item) :
    (dedup_items S).Pairwise (fun a b => item_key a ≠ item_key b) ∧
      dedup_items S = keep_first S := by
  refine ⟨dedup_go_pairwise [] S, ?_⟩
  have h := dedup_go_eq_keep_first [] S
  have hfilter : S.filter (fun it => decide (item_key it ∉ ([] : List (String × String)))) = S := by
    simp
  rw [dedup_items, h, hfilter]

/-! ## FocusConfig parsing (src/main.py:119-136) -/

/-- A YAML value as loaded by `yaml.safe_load` for the configuration file:
string scalars, sequences, and mappings (modelled as association lists,
looked up first-match). -/
inductive YVal where
  | str : String → YVal
  | list : List YVal → YVal
  | map : List (String × YVal) → YVal

mutual

/-- Python `repr` of a YAML value, used by `str()` on non-string values
(quote escaping inside scalars is not reproduced; no theorem depends on
the rendered text of a nested container). -/
def py_repr : YVal → String
  | .str v => "\x27" ++ v ++ "\x27"
  | .list l => "[" ++ py_repr_elems l ++ "]"
  | .map m => "\x7b" ++ py_repr_entries m ++ "\x7d"

def py_repr_elems : List YVal → String
  | [] => ""
  | [x] => py_repr x
  | x :: y :: xs => py_repr x ++ ", " ++ py_repr_elems (y :: xs)

def py_repr_entries : List (String × YVal) → String
  | [] => ""
  | [(k, v)] => "\x27" ++ k ++ "\x27: " ++ py_repr v
  | (k, v) :: e :: xs => "\x27" ++ k ++ "\x27: " ++ py_repr v ++ ", " ++ py_repr_entries (e :: xs)

end

/-- Python `str(x)`: the identity on strings, `repr` on containers. -/
def py_str : YVal → String
  | .str v => v
  | .list l => py_repr (.list l)
  | .map m => py_repr (.map m)

/-- Python truthiness of a YAML value (empty string / sequence / mapping are
falsy). -/
def py_truthy : YVal → Bool
  | .str v => v ≠ ""
  | .list l => !l.isEmpty
  | .map m => !m.isEmpty

/-- Python `a or b` over optional YAML values (`None` and falsy values fall
through to `b`). -/
def py_or (a b : Option YVal) : Option YVal :=
  match a with
  | some v => if py_truthy v then some v else b
  | none => b

/-- Python `m.get(k)` on a mapping. -/
def y_get (m : List (String × YVal)) (k : String) : Option YVal :=
  (m.find? (fun kv => kv.1 == k)).map Prod.snd

/-- The `norm_list` helper of parse_focus (src/main.py:123-128):
`[str(x).strip().lower() for x in (seq or [])]`.  Iterating a Python string
yields its characters; iterating a dict yields its keys. -/
def norm_list : Option YVal → List String
  | none => []
  | some (.str v) =>
    if v = "" then [] else v.toList.map (fun c => py_lower (py_strip (String.singleton c)))
  | some (.list l) => l.map (fun x => py_lower (py_strip (py_str x)))
  | some (.map m) => m.map (fun kv => py_lower (py_strip kv.1))

/-- The normalized FocusConfig built by parse_focus (src/main.py:129-136). -/
structure Focus where
  region : String
  keywords : List String
  companies : List String
  suffixes : List String
  source_domains_prefer : List String
  trend_hints : List String
deriving DecidableEq

/-- The expression `sources.get("focus") if isinstance(sources, dict) else None`
(src/main.py:120). -/
def focus_entry : YVal → Option YVal
  | .map sm => y_get sm "focus"
  | _ => none

/-- Python `isinstance(focus, dict)` on the optional extracted focus value
(src/main.py:121). -/
def isinstance_dict : Option YVal → Bool
  | some (.map _) => true
  | _ => false

/-- parse_focus (src/main.py:119-136): `None` unless the config is a mapping
whose `focus` entry is itself a mapping; otherwise the normalized Focus. -/
def parse_focus (sources : YVal) : Option Focus :=
  match focus_entry sources with
  | some (.map fm) =>
    some {
      region := py_lower (py_strip (py_str ((y_get fm "region").getD (.str ""))))
      keywords := norm_list (y_get fm "keywords")
      companies := norm_list (y_get fm "companies")
      suffixes := norm_list (py_or (y_get fm "domain_suffixes")
        (py_or (y_get fm "domain_suffixes_prefer") none))
      source_domains_prefer := norm_list (y_get fm "source_domains_prefer")
      trend_hints := norm_list (y_get fm "trend_hints")
    }
  | _ => none

/-! ## Relevance scoring and filtering (src/main.py:108-172) -/

/-- NON_UK_HINTS (src/main.py:113-117). -/
def NON_UK_HINTS : List String :=
  [" usa ", " us ", " united states", " new jersey", " nevada",
   " canada", " ontario", " australia", " new zealand",
   " india", " brazil", " africa", " philippines"]

/-- is_major (src/main.py:108-110): the lowercased body contains some
lowercased term. -/
def is_major (body : String) (terms : List String) : Bool :=
  terms.any (fun t => contains_sub (py_lower body) (py_lower t))

/-- Characters CPython's urlsplit accepts inside a URL scheme. -/
def scheme_chars (c : Char) : Bool :=
  c.isAlphanum || c = '+' || c = '-' || c = '.'

/-- The netloc component of `urllib.parse.urlparse`: strip a leading
`scheme:` when well-formed, then, when the remainder starts with `//`, the
host part up to the next `/`, `?` or `#`; otherwise empty. -/
def url_netloc (url : String) : String :=
  let l := url.toList
  let rest :=
    match l.findIdx? (fun c => c = ':') with
    | some i =>
      if 0 < i ∧ (l.take i).all scheme_chars = true ∧
          (match l.head? with | some c => c.isAlpha | none => false) = true then
        l.drop (i + 1)
      else l
    | none => l
  if rest.take 2 = ['/', '/'] then
    ((rest.drop 2).takeWhile (fun c => c != '/' && c != '?' && c != '#')).asString
  else ""

/-- host_matches_suffix (src/main.py:138-143). -/
def host_matches_suffix (link : String) (suffixes : List String) : Bool :=
  let host := py_lower (url_netloc link)
  suffixes.any (fun suf => ends_with host suf)

/-- host_in_pref (src/main.py:145-150). -/
def host_in_pref (link : String) (domains : List String) : Bool :=
  let host := py_lower (url_netloc link)
  domains.any (fun d => ends_with host d)

/-- score_focus (src/main.py:152-162): 0 without a FocusConfig; otherwise the
signed sum of the domain, keyword, company and non-UK-hint signals over the
lowercased `" title summary link "` text. -/
def score_focus (it : Item) (focus : Option Focus) : Int :=
  match focus with
  | none => 0
  | some f =>
    let txt := py_lower (" " ++ it.title ++ " " ++ it.summary ++ " " ++ it.link ++ " ")
    let s1 : Int := if host_matches_suffix it.link f.suffixes then 2 else 0
    let s2 : Int := if host_in_pref it.link f.source_domains_prefer then s1 + 3 else s1
    let s3 : Int := s2 + (f.keywords.countP (fun k => contains_sub txt k) : Nat)
    let s4 : Int := s3 + 2 * ((f.companies.countP (fun c => contains_sub txt c) : Nat) : Int)
    if NON_UK_HINTS.any (fun h => contains_sub txt h) then s4 - 2 else s4

/-- The per-Item keep condition of apply_focus_filter (src/main.py:170):
`s >= FOCUS_THRESHOLD or is_major(f"{title} {summary}", major_terms)`. -/
def passes_focus (thr : Int) (f : Focus) (terms : List String) (it : Item) : Bool :=
  decide (thr ≤ score_focus it (some f)) ||
    is_major (it.title ++ " " ++ it.summary) terms

/-- apply_focus_filter (src/main.py:164-172); `thr` is the FOCUS_THRESHOLD
environment constant. -/
def apply_focus_filter (thr : Int) (items : List Item) (focus : Option Focus)
    (terms : List String) : List Item :=
  match focus with
  | none => items
  | some f => items.filter (passes_focus thr f terms)

/-- C5: when the FocusConfig is absent or malformed (the `focus` entry of the
configuration is not a structured mapping), parse_focus yields none and
relevance filtering returns its input sequence unchanged, for every input. -/
theorem focus_absent_filter_unchanged (sources : YVal)
    (h : isinstance_dict (focus_entry sources) = false)
    (thr : Int) (items : List Item) (terms : List String) :
    parse_focus sources = none ∧
      apply_focus_filter thr items (parse_focus sources) terms = items := by
  have hnone : parse_focus sources = none := by
    unfold parse_focus
    cases hf : focus_entry sources with
    | none => rfl
    | some v =>
      cases v with
      | str _ => rfl
      | list _ => rfl
      | map _ => rw [hf] at h; simp [isinstance_dict] at h
  exact ⟨hnone, by rw [hnone]; rfl⟩

theorem focus_absent_filter_unchanged_witness :
    parse_focus (.str "not a mapping") = none ∧
      apply_focus_filter 1 [⟨"t", "l", "s", "news_rss", "src"⟩]
        (parse_focus (.str "not a mapping")) [] = [⟨"t", "l", "s", "news_rss", "src"⟩] :=
  focus_absent_filter_unchanged (.str "not a mapping") (by decide) 1
    [⟨"t", "l", "s", "news_rss", "src"⟩] []

/-- C4: an Item whose title+summary text contains some configured major
keyword passes relevance filtering regardless of its numeric focus score. -/
theorem major_keyword_overrides (thr : Int) (items : List Item)
    (focus : Option Focus) (terms : List String) (it : Item)
    (hmem : it ∈ items)
    (hmaj : ∃ t ∈ terms, contains_sub (py_lower (it.title ++ " " ++ it.summary)) (py_lower t) = true) :
    it ∈ apply_focus_filter thr items focus terms := by
  cases focus with
  | none => exact hmem
  | some f =>
    refine List.mem_filter.mpr ⟨hmem, ?_⟩
    have hm : is_major (it.title ++ " " ++ it.summary) terms = true := by
      obtain ⟨t, ht, hc⟩ := hmaj
      exact List.any_eq_true.mpr ⟨t, ht, hc⟩
    simp [passes_focus, hm]

theorem major_keyword_overrides_witness :
    (⟨"UK tax news", "l", "", "news_rss", "src"⟩ : Item) ∈
      apply_focus_filter 100
        [⟨"UK tax news", "l", "", "news_rss", "src"⟩]
        (some ⟨"uk", [], [], [], [], []⟩) ["tax"] :=
  major_keyword_overrides 100 [⟨"UK tax news", "l", "", "news_rss", "src"⟩]
    (some ⟨"uk", [], [], [], [], []⟩) ["tax"]
    ⟨"UK tax news", "l", "", "news_rss", "src"⟩
    (by decide) ⟨"tax", by decide, by decide⟩

/-! ## Games section (src/main.py:413-529) -/

/-- GAME_KEYWORDS (src/main.py:413-418). -/
def GAME_KEYWORDS : List String :=
  ["slot", "new slot", "slots", "megaways", "jackpot", "jackpots",
   "launch", "launches", "released", "release", "unveils", "rolls out",
   "live casino", "game show", "crash game", "instant win",
   "roulette", "blackjack", "baccarat", "table game"]

/-- STUDIO_KEYWORDS (src/main.py:419-424). -/
def STUDIO_KEYWORDS : List String :=
  ["evolution", "netent", "red tiger", "big time gaming", "btg", "pragmatic play",
   "playtech", "light & wonder", "scientific games", "games global", "blueprint",
   "relax gaming", "yggdrasil", "elk studios", "nolimit city", "hacksaw", "push gaming",
   "play\x27n go", "spinomenal", "isoftbet", "greentube", "quickspin"]

/-- is_game_item (src/main.py:426-428): the lowercased `" title summary "`
text contains a gameplay term or a studio name. -/
def is_game_item (it : Item) : Bool :=
  let t := py_lower (" " ++ it.title ++ " " ++ it.summary ++ " ")
  GAME_KEYWORDS.any (fun k => contains_sub t k) ||
    STUDIO_KEYWORDS.any (fun s => contains_sub t s)

/-- The composite game-ranking score `_game_score` (src/main.py:430-441). -/
def game_score (it : Item) (focus : Option Focus) : Int :=
  let t := py_lower (" " ++ it.title ++ " " ++ it.summary ++ " " ++ it.link ++ " ")
  let s1 : Int := if GAME_KEYWORDS.any (fun k => contains_sub t k) then 2 else 0
  let s2 : Int := if STUDIO_KEYWORDS.any (fun sv => contains_sub t sv) then s1 + 2 else s1
  let s3 : Int := if contains_sub t ".co.uk" || ends_with (py_strip t) ".uk" then s2 + 2 else s2
  let s4 : Int :=
    if contains_sub t " uk " || contains_sub t "britain" || contains_sub t "united kingdom" ||
        contains_sub t "england" then s3 + 2 else s3
  let s5 : Int :=
    if contains_sub t "launch" || contains_sub t "released" || contains_sub t "unveils" then
      s4 + 1 else s4
  let s6 : Int :=
    if contains_sub t "megaways" || contains_sub t "jackpot" || contains_sub t "game show" then
      s5 + 1 else s5
  let s7 : Int := s6 + max 0 (score_focus it focus)
  if NON_UK_HINTS.any (fun h => contains_sub t h) then s7 - 2 else s7

/-- The stable descending sort `sorted(candidates, key=_game_score, reverse=True)`
(src/main.py:478): Python's sort is stable, and insertion sort is the stable
sort, so the two agree for this total comparator. -/
def rank_games (focus : Option Focus) (l : List Item) : List Item :=
  List.insertionSort (fun a b => game_score b focus ≤ game_score a focus) l

/-- The `collected` mapping as consumed by build_games_section and
build_email: the per-section Item lists plus the fallback feed URL list
stored at key `_games_fallback_urls` (src/main.py:676-699). -/
structure Collected where
  news_rss : List Item
  games_rss : List Item
  bingo_rss : List Item
  poker_rss : List Item
  games_fallback_urls : List String
deriving DecidableEq

/-- The primary candidate pool of build_games_section (src/main.py:469-475):
game-classified Items of the four RSS buckets, deduplicated. -/
def games_candidates (c : Collected) : List Item :=
  dedup_items ((c.news_rss ++ c.games_rss ++ c.bingo_rss ++ c.poker_rss).filter is_game_item)

/-- The selection logic of build_games_section (src/main.py:468-498),
omitting card rendering: take the top `gt` ranked primary candidates
(`gt` is GAMES_TARGET) and, when short, append backfill candidates.
`sim` is difflib-based `_is_title_similar` (an external library primitive,
modelled as a parameter); `fallbackPool` is what `collect_rss_items` returns
for the fallback feed URLs under the widened lookback window. -/
def build_games_top (gt : Nat) (sim : String → String → Bool) (focus : Option Focus)
    (c : Collected) (fallbackPool : List Item) : List Item :=
  let ranked := rank_games focus (games_candidates c)
  let top := ranked.take gt
  if top.length < gt then
    if c.games_fallback_urls.isEmpty then top
    else
      let extra := dedup_items (fallbackPool.filter is_game_item)
      let safe := extra.filter (fun it =>
        decide (it.link ∉ top.map Item.link) &&
        !(top.any (fun x => sim it.title x.title)))
      top ++ (rank_games focus safe).take (gt - top.length)
  else top

/-- The guard under which build_games_section queries the fallback feed set
(src/main.py:482-485): the fetch `collect_rss_items("games_rss_fallback", ...)`
runs exactly when fewer than `gt` primary picks exist and the fallback URL
list is non-empty. -/
def games_backfill_queried (gt : Nat) (focus : Option Focus) (c : Collected) : Bool :=
  decide (((rank_games focus (games_candidates c)).take gt).length < gt) &&
    !c.games_fallback_urls.isEmpty

/-- C10: the games selection never exceeds GAMES_TARGET Items, whether or not
backfill runs. -/
theorem games_selection_capped (gt : Nat) (sim : String → String → Bool)
    (focus : Option Focus) (c : Collected) (fallbackPool : List Item) :
    (build_games_top gt sim focus c fallbackPool).length ≤ gt := by
  have htop : ((rank_games focus (games_candidates c)).take gt).length ≤ gt :=
    List.length_take_le _ _
  simp only [build_games_top]
  split
  · split
    · exact htop
    · simp only [List.length_append, List.length_take]
      omega
  · exact htop

/-- C8: whenever at least GAMES_TARGET valid primary candidates exist, the
fallback feed set is not queried. -/
theorem backfill_only_when_short (gt : Nat) (focus : Option Focus) (c : Collected)
    (h : gt ≤ (games_candidates c).length) :
    games_backfill_queried gt focus c = false := by
  have hperm := (List.perm_insertionSort
    (fun a b => game_score b focus ≤ game_score a focus) (games_candidates c)).length_eq
  have hlen : ((rank_games focus (games_candidates c)).take gt).length = gt := by
    rw [List.length_take, rank_games, hperm]
    omega
  simp [games_backfill_queried, hlen]

theorem backfill_only_when_short_witness :
    games_backfill_queried 1 none
      ⟨[⟨"new slot arrives", "l1", "", "news_rss", "u"⟩], [], [], [], ["fb-url"]⟩ = false :=
  backfill_only_when_short 1 none
    ⟨[⟨"new slot arrives", "l1", "", "news_rss", "u"⟩], [], [], [], ["fb-url"]⟩
    (by decide)

/-! ## Cross-section suppression in build_email (src/main.py:538-555) -/

/-- The news filtering loop of build_email (src/main.py:546-553): keep a news
Item unless its link was used in the games section or its title is
near-duplicate to a used games title. -/
def build_email_news_filtered (sim : String → String → Bool)
    (top news : List Item) : List Item :=
  news.filter (fun it =>
    decide (it.link ∉ top.map Item.link) &&
    !(top.any (fun x => sim it.title x.title)))

/-- The news bucket as rendered by build_email (src/main.py:554):
the filtered list truncated to NEWS_MAX (`nm`). -/
def build_email_news (nm : Nat) (sim : String → String → Bool)
    (top news : List Item) : List Item :=
  (build_email_news_filtered sim top news).take nm

/-- C2: an Item selected into the finalized games bucket never appears (by
exact link) in the news bucket's final output; the news bucket is filtered
by the games bucket's links and near-duplicate titles before its own top-N
truncation. -/
theorem games_item_not_in_news (gt nm : Nat) (sim : String → String → Bool)
    (focus : Option Focus) (c : Collected) (fallbackPool : List Item)
    (g n : Item)
    (hg : g ∈ build_games_top gt sim focus c fallbackPool)
    (hn : n ∈ build_email_news nm sim (build_games_top gt sim focus c fallbackPool) c.news_rss) :
    n.link ≠ g.link := by
  have hn' := List.take_subset _ _ hn
  have hcond := (List.mem_filter.mp hn').2
  have hnot : n.link ∉ (build_games_top gt sim focus c fallbackPool).map Item.link := by
    have := (Bool.and_eq_true_iff.mp hcond).1
    exact of_decide_eq_true this
  intro heq
  exact hnot (heq ▸ List.mem_map_of_mem Item.link hg)

theorem games_item_not_in_news_witness :
    ("l2" : String) ≠ "l1" :=
  games_item_not_in_news 5 6 (fun _ _ => false) none
    ⟨[⟨"new slot arrives", "l1", "", "news_rss", "u"⟩,
      ⟨"other story", "l2", "", "news_rss", "u"⟩], [], [], [], []⟩ []
    ⟨"new slot arrives", "l1", "", "news_rss", "u"⟩
    ⟨"other story", "l2", "", "news_rss", "u"⟩
    (by decide) (by decide)

/-! ## Backfill predicates (C3) -/

/-- Focus configuration for the backfill counterexample: one keyword that the
backfilled item does not contain, so its focus score is 0. -/
def focus_cex : Focus :=
  ⟨"uk", ["roadmap"], [], [], [], []⟩

/-- The backfilled item of the counterexample: game-classified (contains
"slot") but failing the relevance filter under `focus_cex`. -/
def item_cex : Item :=
  ⟨"new slot arrives", "lb", "", "games_rss_fallback", "fb-url"⟩

/-- A collected pool with no primary games candidates and one fallback URL,
forcing backfill. -/
def collected_cex : Collected :=
  ⟨[], [], [], [], ["fb-url"]⟩

/-- C3 counterexample: a backfilled candidate reaches the games selection
even though it fails the relevance-filtering predicate that primary
candidates were subjected to (apply_focus_filter would drop it), so backfill
does not re-apply the relevance filter. -/
theorem backfill_skips_relevance_filter_cex :
    item_cex ∈ build_games_top 5 (fun _ _ => false) (some focus_cex) collected_cex [item_cex] ∧
      apply_focus_filter 1 [item_cex] (some focus_cex) [] = [] := by
  constructor
  · decide
  · decide

/-- C3 amended: every Item in the games selection is either a primary pick,
or a backfilled candidate that passed the same game-classification predicate
`is_game_item` as primary candidates and the exclusion checks against
already-selected links and near-duplicate titles; the relevance filter
itself is not re-applied during backfill. -/
theorem backfill_applies_game_predicate (gt : Nat) (sim : String → String → Bool)
    (focus : Option Focus) (c : Collected) (fallbackPool : List Item) (it : Item)
    (hmem : it ∈ build_games_top gt sim focus c fallbackPool) :
    it ∈ (rank_games focus (games_candidates c)).take gt ∨
      (is_game_item it = true ∧ it ∈ fallbackPool ∧
        it.link ∉ ((rank_games focus (games_candidates c)).take gt).map Item.link ∧
        ((rank_games focus (games_candidates c)).take gt).any
          (fun x => sim it.title x.title) = false) := by
  simp only [build_games_top] at hmem
  split at hmem
  · split at hmem
    · exact Or.inl hmem
    · rcases List.mem_append.mp hmem with h | h
      · exact Or.inl h
      · have hsafe := List.take_subset _ _ h
        have hsafe' := (List.perm_insertionSort
          (fun a b => game_score b focus ≤ game_score a focus) _).subset hsafe
        have hf := List.mem_filter.mp hsafe'
        have hextra := (dedup_go_sublist [] _).subset hf.1
        have hfi := List.mem_filter.mp hextra
        have hcond := Bool.and_eq_true_iff.mp hf.2
        refine Or.inr ⟨hfi.2, hfi.1, of_decide_eq_true hcond.1, ?_⟩
        have := hcond.2
        simpa using this
  · exact Or.inl hmem

theorem backfill_applies_game_predicate_witness :
    item_cex ∈ (rank_games (some focus_cex) (games_candidates collected_cex)).take 5 ∨
      (is_game_item item_cex = true ∧ item_cex ∈ [item_cex] ∧
        item_cex.link ∉ ((rank_games (some focus_cex) (games_candidates collected_cex)).take 5).map Item.link ∧
        ((rank_games (some focus_cex) (games_candidates collected_cex)).take 5).any
          (fun x => (fun _ _ => false : String → String → Bool) item_cex.title x.title) = false) :=
  backfill_applies_game_predicate 5 (fun _ _ => false) (some focus_cex) collected_cex
    [item_cex] item_cex (by decide)

/-! ## Summarizer fallback chain (src/main.py:175-201, 280-314, 451-466)

The Completion Service is modelled as an oracle: attempt number ↦ parsed
result, where `none` is a transport or JSON-parse failure (an exception in
the Python code) and `some` carries the parsed payload. -/

/-- The two optional fields of the parsed structured response
`{"en": ..., "he": ...}`. -/
structure JsonPair where
  en : Option String
  he : Option String
deriving DecidableEq

/-- The retry loop of `_llm_json` (src/main.py:175-201): each of `tries`
rounds makes a structured attempt and, on failure, an unstructured retry
after a fixed delay; the returned Nat counts Completion Service calls made,
starting from call index `k`.  A `none` result models the final `raise`. -/
def llm_json_run {α : Type} (oracle : Nat → Option α) : Nat → Nat → Option α × Nat
  | 0, k => (none, k)
  | t + 1, k =>
    match oracle k with
    | some v => (some v, k + 1)
    | none =>
      match oracle (k + 1) with
      | some v => (some v, k + 2)
      | none => llm_json_run oracle t (k + 2)

/-- The function `_llm_json(prompt, tries)` (src/main.py:175): result and
number of Completion Service calls. -/
def llm_json {α : Type} (oracle : Nat → Option α) (tries : Nat) : Option α × Nat :=
  llm_json_run oracle tries 0

/-- Python `s.split(sep, 1)`: split at the leftmost occurrence of `sep`,
`none` second component when `sep` does not occur. -/
def py_split_once (s sep : String) : String × Option String :=
  match (List.range (s.toList.length + 1)).find?
      (fun i => sep.toList.isPrefixOf (s.toList.drop i)) with
  | some i =>
    ((s.toList.take i).asString, some ((s.toList.drop (i + sep.toList.length)).asString))
  | none => (s, none)

/-- The tier-3 snippet of llm_two_paras (src/main.py:313):
`" ".join((summary or title or "").split())[:300]`. -/
def local_snippet_text (it : Item) : String :=
  py_take (collapse_ws (if it.summary ≠ "" then it.summary
    else if it.title ≠ "" then it.title else "")) 300

/-- The tier-3 local heuristic of llm_two_paras (src/main.py:313-314):
`(snippet or "See source."), ""`. -/
def local_snippet (it : Item) : String × String :=
  (if local_snippet_text it = "" then "See source." else local_snippet_text it, "")

/-- The delimited-text tier of llm_two_paras (src/main.py:294-312): `o2` is
the free-text completion (`none` models the call raising); its strip is
split once on the delimiter line, and an all-empty result falls through to
the local heuristic. -/
def tier2_delim (o2 : Option String) (it : Item) : String × String :=
  match o2 with
  | none => local_snippet it
  | some raw =>
    let text := py_strip raw
    let parts := py_split_once text "\n---\n"
    let en := py_strip parts.1
    let he := py_strip (parts.2.getD "")
    if en ≠ "" ∨ he ≠ "" then (en, he) else local_snippet it

/-- llm_two_paras (src/main.py:280-314): structured tier via `_llm_json`
with tries=2 (an all-empty parse also falls through), then delimited tier,
then the local heuristic. -/
def llm_two_paras (o1 : Nat → Option JsonPair) (o2 : Option String)
    (it : Item) : String × String :=
  match (llm_json o1 2).1 with
  | some d =>
    let en := py_strip (d.en.getD "")
    let he := py_strip (d.he.getD "")
    if en ≠ "" ∨ he ≠ "" then (en, he) else tier2_delim o2 it
  | none => tier2_delim o2 it

/-- The fallback snippet of `_summarize_game_card` (src/main.py:464):
`" ".join((summary or title or "").split())[:160]`. -/
def game_card_snippet (it : Item) : String :=
  py_take (collapse_ws (if it.summary ≠ "" then it.summary
    else if it.title ≠ "" then it.title else "")) 160

/-- The function `_summarize_game_card` (src/main.py:451-466): one `_llm_json` call with
tries=2; on failure the local snippet (or the bare title), with empty
secondary text.  Unlike llm_two_paras, a successful parse is used as-is. -/
def summarize_game_card (o : Nat → Option JsonPair) (it : Item) : String × String :=
  match (llm_json o 2).1 with
  | some d => (py_strip (d.en.getD ""), py_strip (d.he.getD ""))
  | none =>
    (if game_card_snippet it = "" then it.title else game_card_snippet it, "")

theorem local_snippet_fst_ne (it : Item) : (local_snippet it).1 ≠ "" := by
  by_cases h : local_snippet_text it = "" <;> simp [local_snippet, h]

theorem ne_both_empty_of_fst {p : String × String} (h : p.1 ≠ "") :
    p ≠ ("", "") := by
  intro he
  exact h (by rw [he])

theorem tier2_delim_ne_both_empty (o2 : Option String) (it : Item) :
    tier2_delim o2 it ≠ ("", "") := by
  cases o2 with
  | none => exact ne_both_empty_of_fst (local_snippet_fst_ne it)
  | some raw =>
    simp only [tier2_delim]
    split
    · intro he
      rw [Prod.mk.injEq] at he
      rename_i hguard
      rcases hguard with hg | hg
      · exact hg he.1
      · exact hg he.2
    · exact ne_both_empty_of_fst (local_snippet_fst_ne it)

/-- C1: for every well-formed Item (non-empty title) the Summarizer never
returns a both-empty pair: llm_two_paras is never both-empty for any
Completion Service behaviour; when every call fails it degrades to the
local heuristic tier, whose secondary text is empty; and the game-card
summarizer with every call failing is never both-empty either. -/
theorem summarizer_never_both_empty (it : Item) (h : it.title ≠ "")
    (o1 : Nat → Option JsonPair) (o2 : Option String) :
    llm_two_paras o1 o2 it ≠ ("", "") ∧
      llm_two_paras (fun _ => none) none it = local_snippet it ∧
      (local_snippet it).2 = "" ∧
      summarize_game_card (fun _ => none) it ≠ ("", "") := by
  refine ⟨?_, rfl, rfl, ?_⟩
  · simp only [llm_two_paras]
    split
    · split
      · intro he
        rw [Prod.mk.injEq] at he
        rename_i hguard
        rcases hguard with hg | hg
        · exact hg he.1
        · exact hg he.2
      · exact tier2_delim_ne_both_empty o2 it
    · exact tier2_delim_ne_both_empty o2 it
  · refine ne_both_empty_of_fst ?_
    show (if game_card_snippet it = "" then it.title else game_card_snippet it) ≠ ""
    by_cases hs : game_card_snippet it = "" <;> simp [hs, h]

theorem summarizer_never_both_empty_witness :
    llm_two_paras (fun _ => none) none ⟨"Launch day", "l", "", "news_rss", "u"⟩ ≠ ("", "") ∧
      llm_two_paras (fun _ => none) none ⟨"Launch day", "l", "", "news_rss", "u"⟩ =
        local_snippet ⟨"Launch day", "l", "", "news_rss", "u"⟩ ∧
      (local_snippet ⟨"Launch day", "l", "", "news_rss", "u"⟩).2 = "" ∧
      summarize_game_card (fun _ => none) ⟨"Launch day", "l", "", "news_rss", "u"⟩ ≠ ("", "") :=
  summarizer_never_both_empty ⟨"Launch day", "l", "", "news_rss", "u"⟩ (by decide)
    (fun _ => none) none

/-! ## Retry counting (C9) -/

/-- Completion Service calls made by llm_two_paras: the `_llm_json` calls of
the structured tier, plus the single delimited-tier call when the structured
tier fails or parses all-empty. -/
def llm_two_paras_attempts (o1 : Nat → Option JsonPair) : Nat :=
  let r := llm_json o1 2
  match r.1 with
  | some d =>
    if py_strip (d.en.getD "") ≠ "" ∨ py_strip (d.he.getD "") ≠ "" then r.2 else r.2 + 1
  | none => r.2 + 1

/-- C9 counterexample: with every Completion Service call failing, the
structured tier `_llm_json(prompt, tries=2)` makes 4 calls before falling
through — not the 2 (one attempt plus one retry) the claim states. -/
theorem structured_tier_four_attempts_cex :
    (llm_json (fun _ => (none : Option JsonPair)) 2).2 = 4 ∧
      (llm_json (fun _ => (none : Option JsonPair)) 2).2 ≠ 2 := by
  constructor
  · decide
  · decide

theorem llm_json_run_attempts_le {α : Type} (oracle : Nat → Option α) (t k : Nat) :
    (llm_json_run oracle t k).2 ≤ k + 2 * t := by
  induction t generalizing k with
  | zero => simp [llm_json_run]
  | succ t ih =>
    simp only [llm_json_run]
    cases oracle k with
    | some v =>
      show k + 1 ≤ k + 2 * (t + 1)
      omega
    | none =>
      cases oracle (k + 1) with
      | some v =>
        show k + 2 ≤ k + 2 * (t + 1)
        omega
      | none =>
        have h2 := ih (k + 2)
        show (llm_json_run oracle t (k + 2)).2 ≤ k + 2 * (t + 1)
        omega

/-- C9 amended: the structured tier makes at most `2 * tries` Completion
Service calls (with the invoked tries=2, at most 4: two rounds of one
structured attempt plus one plain-mode retry after a fixed delay) before
falling through, and llm_two_paras makes at most 5 calls in total across
its tiers. -/
theorem completion_attempts_bounded {α : Type} (oracle : Nat → Option α)
    (tries : Nat) (o1 : Nat → Option JsonPair) :
    (llm_json oracle tries).2 ≤ 2 * tries ∧ llm_two_paras_attempts o1 ≤ 5 := by
  have h4 : (llm_json o1 2).2 ≤ 4 := by
    simpa [llm_json] using llm_json_run_attempts_le o1 2 0
  constructor
  · simpa [llm_json] using llm_json_run_attempts_le oracle tries 0
  · simp only [llm_two_paras_attempts]
    split
    · split
      · omega
      · omega
    · omega

end Digest
